import Mathlib

/-!
Verification of `wcsaxes/utils.py`: "nice" tick-step selection for
astronomical coordinate axes and WCS coordinate-frame resolution,
shallowly embedded in Lean 4.

Numeric code is idealised over the real numbers; Python strings are
modelled as `List Char`; the failing table lookup (an `IndexError` at
runtime) is modelled by `Option`; a raised `ValueError` is modelled by
`Except`.
-/

namespace WCSAxes

/-- `np.log10`, idealised over the reals. -/
noncomputable def log10 (x : ℝ) : ℝ := Real.logb 10 x

/-- Helper for `np.argmin`: `some (i, v)` where `v` is the minimum of the
list and `i` is the first index attaining it; `none` on the empty list. -/
noncomputable def argminAux : List ℝ → Option (ℕ × ℝ)
  | [] => none
  | x :: xs =>
    match argminAux xs with
    | none => some (0, x)
    | some (i, v) => if x ≤ v then some (0, x) else some (i + 1, v)

/-- `np.argmin`: the first index of the minimal element (0 on `[]`). -/
noncomputable def argmin (l : List ℝ) : ℕ :=
  match argminAux l with
  | none => 0
  | some (i, _) => i

/-- `steps = np.log10([1, 2, 5, 10])` in `select_step_scalar` (elementwise
log10 of the array). -/
noncomputable def sss_steps : List ℝ := [log10 1, log10 2, log10 5, log10 10]

/-- `select_step_scalar(dv)` from `wcsaxes/utils.py`:

    log10_dv = np.log10(dv)
    base = np.floor(log10_dv)
    frac = log10_dv - base
    steps = np.log10([1, 2, 5, 10])
    imin = np.argmin(np.abs(frac - steps))
    return 10. ** (base + steps[imin])
-/
noncomputable def select_step_scalar (dv : ℝ) : ℝ :=
  let log10_dv := log10 dv
  let base : ℝ := (⌊log10_dv⌋ : ℝ)
  let frac := log10_dv - base
  let imin := argmin (sss_steps.map (fun s => |frac - s|))
  10 ^ (base + sss_steps.getD imin 0)

/-- The angular units used by the module (astropy `u.degree`, `u.arcmin`,
`u.arcsec`, `u.hourangle`). -/
inductive AngUnit
  | degree
  | arcmin
  | arcsec
  | hourangle
  deriving DecidableEq

/-- The size of one unit, in degrees. -/
def AngUnit.degFactor : AngUnit → ℚ
  | .degree => 1
  | .arcmin => 1 / 60
  | .arcsec => 1 / 3600
  | .hourangle => 15

/-- An astropy `Quantity`: a real value attached to an angular unit.  The
scaled units of the source (`15. * u.arcsec`, `15. * u.arcmin`) are the
quantities `⟨15, arcsec⟩` and `⟨15, arcmin⟩`; a bare unit is `⟨1, _⟩`. -/
structure Quantity where
  value : ℝ
  unit : AngUnit

/-- The physical magnitude of a quantity, in degrees.  astropy comparisons
of quantities (`dv > 1. * u.arcsec`) compare these magnitudes. -/
noncomputable def Quantity.toDeg (q : Quantity) : ℝ :=
  q.value * ((q.unit.degFactor : ℚ) : ℝ)

/-- `q.to(tgt).value`: the value of `q` expressed in the (possibly scaled)
unit `tgt`. -/
noncomputable def Quantity.toVal (q tgt : Quantity) : ℝ := q.toDeg / tgt.toDeg

/-- `step * unit`: multiplying a quantity by a scalar on the left. -/
noncomputable def Quantity.smul (s : ℝ) (q : Quantity) : Quantity :=
  ⟨s * q.value, q.unit⟩

/-- `np.ndarray.searchsorted` with the default `side="left"` on an
ascending array: the insertion index, i.e. the number of entries strictly
below `v`. -/
noncomputable def searchsortedLeft (l : List ℚ) (v : ℝ) : ℕ :=
  l.countP (fun (a : ℚ) => decide ((a : ℝ) < v))

namespace SelectStepDegree

/-- `degree_limits_` in `select_step_degree`. -/
def degree_limits_ : List ℚ := [3/2, 3, 7, 13, 20, 40, 70, 120, 270, 520]

/-- `degree_steps_` in `select_step_degree`. -/
def degree_steps_ : List ℕ := [1, 2, 5, 10, 15, 30, 45, 90, 180, 360]

/-- `minsec_limits_` in `select_step_degree`. -/
def minsec_limits_ : List ℚ := [3/2, 5/2, 7/2, 8, 11, 18, 25, 45]

/-- `minsec_steps_` in `select_step_degree`. -/
def minsec_steps_ : List ℕ := [1, 2, 3, 5, 10, 15, 20, 30]

/-- `minute_limits_ = np.array(minsec_limits_) / 60.` -/
def minute_limits_ : List ℚ := minsec_limits_.map (· / 60)

/-- `second_limits_ = np.array(minsec_limits_) / 3600.` -/
def second_limits_ : List ℚ := minsec_limits_.map (· / 3600)

/-- `degree_limits = np.concatenate([second_limits_, minute_limits_, degree_limits_])` -/
def degree_limits : List ℚ := second_limits_ ++ minute_limits_ ++ degree_limits_

/-- `degree_steps = minsec_steps_ + minsec_steps_ + degree_steps_` -/
def degree_steps : List ℕ := minsec_steps_ ++ minsec_steps_ ++ degree_steps_

/-- `degree_units = second_units + minute_units + degree_units` where
`second_units = [u.arcsec] * len(second_limits_)`,
`minute_units = [u.arcmin] * len(minute_limits_)` and the original
`degree_units = [u.degree] * len(degree_steps_)`. -/
def degree_units : List Quantity :=
  List.replicate second_limits_.length ⟨1, .arcsec⟩ ++
    List.replicate minute_limits_.length ⟨1, .arcmin⟩ ++
    List.replicate degree_steps_.length ⟨1, .degree⟩

end SelectStepDegree

/-- `select_step_degree(dv)` from `wcsaxes/utils.py`.  The out-of-range
table indexing `degree_steps[n]` (an `IndexError` at runtime) is modelled
as `none`. -/
noncomputable def select_step_degree (dv : Quantity) : Option Quantity :=
  if (Quantity.mk 1 .arcsec).toDeg < dv.toDeg then
    let n := searchsortedLeft SelectStepDegree.degree_limits (dv.toVal ⟨1, .degree⟩)
    match SelectStepDegree.degree_steps[n]?, SelectStepDegree.degree_units[n]? with
    | some step, some u => some (Quantity.smul (step : ℝ) u)
    | _, _ => none
  else
    some (Quantity.smul (select_step_scalar (dv.toVal ⟨1, .arcsec⟩)) ⟨1, .arcsec⟩)

namespace SelectStepHour

/-- `hour_limits_` in `select_step_hour`. -/
def hour_limits_ : List ℚ := [3/2, 5/2, 7/2, 5, 7, 10, 15, 21, 36]

/-- `hour_steps_` in `select_step_hour`. -/
def hour_steps_ : List ℕ := [1, 2, 3, 4, 6, 8, 12, 18, 24]

/-- `minsec_limits_` in `select_step_hour`. -/
def minsec_limits_ : List ℚ := [3/2, 5/2, 7/2, 9/2, 11/2, 8, 11, 14, 18, 25, 45]

/-- `minsec_steps_` in `select_step_hour`. -/
def minsec_steps_ : List ℕ := [1, 2, 3, 4, 5, 6, 10, 12, 15, 20, 30]

/-- `minute_limits_ = np.array(minsec_limits_) / 60.` -/
def minute_limits_ : List ℚ := minsec_limits_.map (· / 60)

/-- `second_limits_ = np.array(minsec_limits_) / 3600.` -/
def second_limits_ : List ℚ := minsec_limits_.map (· / 3600)

/-- `hour_limits = np.concatenate([second_limits_, minute_limits_, hour_limits_])` -/
def hour_limits : List ℚ := second_limits_ ++ minute_limits_ ++ hour_limits_

/-- `hour_steps = minsec_steps_ + minsec_steps_ + hour_steps_` -/
def hour_steps : List ℕ := minsec_steps_ ++ minsec_steps_ ++ hour_steps_

/-- `hour_units = second_units + minute_units + hour_units` where
`second_units = [15. * u.arcsec] * len(second_limits_)`,
`minute_units = [15. * u.arcmin] * len(minute_limits_)` and the original
`hour_units = [u.hourangle] * len(hour_steps_)`. -/
def hour_units : List Quantity :=
  List.replicate second_limits_.length ⟨15, .arcsec⟩ ++
    List.replicate minute_limits_.length ⟨15, .arcmin⟩ ++
    List.replicate hour_steps_.length ⟨1, .hourangle⟩

end SelectStepHour

/-- `select_step_hour(dv)` from `wcsaxes/utils.py`, modelled like
`select_step_degree`. -/
noncomputable def select_step_hour (dv : Quantity) : Option Quantity :=
  if (Quantity.mk 15 .arcsec).toDeg < dv.toDeg then
    let n := searchsortedLeft SelectStepHour.hour_limits (dv.toVal ⟨1, .hourangle⟩)
    match SelectStepHour.hour_steps[n]?, SelectStepHour.hour_units[n]? with
    | some step, some u => some (Quantity.smul (step : ℝ) u)
    | _, _ => none
  else
    some (Quantity.smul (select_step_scalar (dv.toVal ⟨15, .arcsec⟩)) ⟨15, .arcsec⟩)

/-- A WCS object, reduced to the two axis-type codes `wcs.wcs.ctype[0]` and
`wcs.wcs.ctype[1]` that the module reads.  Python strings are modelled as
lists of characters. -/
structure WCS where
  ctype0 : List Char
  ctype1 : List Char

/-- Coordinate frame classes: `astropy.coordinates.FK5`, `Galactic`, or any
other frame class an identifier callback may return. -/
inductive FrameClass
  | FK5
  | Galactic
  | custom (id : ℕ)
  deriving DecidableEq

/-- A frame identifier callback: takes a WCS object, returns a frame class
or `None`. -/
def Identifier : Type := WCS → Option FrameClass

/-- The loop `for ident in FRAME_IDENTIFIERS: ... break` of
`get_coordinate_frame`: returns the first non-`None` result (else `none`),
paired with the number of identifier callbacks actually invoked. -/
def run_identifiers : List Identifier → WCS → Option FrameClass × ℕ
  | [], _ => (none, 0)
  | f :: rest, wcs =>
    match f wcs with
    | some c => (some c, 1)
    | none =>
      let r := run_identifiers rest wcs
      (r.1, r.2 + 1)

/-- The message of the `ValueError` raised by `get_coordinate_frame`:
`"Frame not supported: {0}/{1}".format(wcs.wcs.ctype[0], wcs.wcs.ctype[1])`. -/
def frame_not_supported_msg (wcs : WCS) : List Char :=
  "Frame not supported: ".toList ++ wcs.ctype0 ++ "/".toList ++ wcs.ctype1

/-- `get_coordinate_frame(wcs)` from `wcsaxes/utils.py`, with the global
`FRAME_IDENTIFIERS` list passed as an explicit argument.  The second
component of the result counts how many registered identifier callbacks
were invoked. -/
def get_coordinate_frame_instr (ids : List Identifier) (wcs : WCS) :
    Except (List Char) FrameClass × ℕ :=
  let xcoord := wcs.ctype0.take 4
  let ycoord := wcs.ctype1.take 4
  if xcoord = "RA--".toList ∧ ycoord = "DEC-".toList then
    (Except.ok FrameClass.FK5, 0)
  else if xcoord = "GLON".toList ∧ ycoord = "GLAT".toList then
    (Except.ok FrameClass.Galactic, 0)
  else
    match run_identifiers ids wcs with
    | (some c, k) => (Except.ok c, k)
    | (none, k) => (Except.error (frame_not_supported_msg wcs), k)

/-- `get_coordinate_frame(wcs)`: the returned frame class or raised
`ValueError`. -/
def get_coordinate_frame (ids : List Identifier) (wcs : WCS) :
    Except (List Char) FrameClass :=
  (get_coordinate_frame_instr ids wcs).1

/-- `register_frame_identifier(func)`: `FRAME_IDENTIFIERS.append(func)`,
with the global list passed and returned explicitly. -/
def register_frame_identifier (func : Identifier) (reg : List Identifier) :
    List Identifier :=
  reg ++ [func]

/-- `reset_frame_identifiers()`: rebinds the global list to `[]`. -/
def reset_frame_identifiers (_reg : List Identifier) : List Identifier := []

/-- The dictionary built by `get_coord_meta`. `name = none` models a dict
in which the `"name"` key was never assigned. -/
structure CoordMeta where
  type : List Char × List Char
  wrap : Option ℚ × Option ℚ
  unit : AngUnit × AngUnit
  name : Option (List (List Char))

/-- The parts of astropy that `get_coord_meta` calls, abstracted: frame
classes are an arbitrary type `F`; `lookup_name` models
`frame_transform_graph.lookup_name` (`none` = no such frame);
`component_names` models `frame().representation_component_names.keys()`;
`noCoords` is true when `from astropy.coordinates import ...` raises
`ImportError` (the `except` branch of the source). -/
structure AstropyEnv (F : Type) where
  lookup_name : List Char → Option F
  component_names : F → List (List Char)
  noCoords : Bool

/-- `get_coord_meta(frame)` from `wcsaxes/utils.py`.  `frame` is either a
frame name (string, `Sum.inl`) or a frame class (`Sum.inr`).  A raised
exception (`TypeError` from calling `None`, or the explicit `ValueError`)
is modelled as `Except.error`. -/
def get_coord_meta {F : Type} (env : AstropyEnv F) (frame : List Char ⊕ F) :
    Except (List Char) CoordMeta :=
  let base : CoordMeta :=
    { type := ("longitude".toList, "latitude".toList)
      wrap := (none, none)
      unit := (AngUnit.degree, AngUnit.degree)
      name := none }
  if env.noCoords then
    match frame with
    | Sum.inl s =>
      if s = "fk4".toList ∨ s = "fk5".toList ∨ s = "icrs".toList then
        Except.ok { base with name := some ["ra".toList, "dec".toList] }
      else if s = "galactic".toList then
        Except.ok { base with name := some ["l".toList, "b".toList] }
      else
        Except.error ("Unknown frame: ".toList ++ s)
    | Sum.inr _ => Except.ok base
  else
    match (match frame with
           | Sum.inl s => env.lookup_name s
           | Sum.inr f => some f) with
    | none => Except.error "TypeError".toList
    | some f =>
      Except.ok { base with name := some ((env.component_names f).take 2) }

/-- `coord_type_from_ctype(ctype)` from `wcsaxes/utils.py`.  Python string
slices `ctype[:4]` and `ctype[1:4]` are `take 4` and `(drop 1).take 3`. -/
def coord_type_from_ctype (ctype : List Char) : List Char × Option ℚ :=
  if ctype.take 4 ∈ ["RA--".toList] ∨ (ctype.drop 1).take 3 = "LON".toList then
    ("longitude".toList, none)
  else if ctype.take 4 ∈ ["HPLN".toList] then
    ("longitude".toList, some 180)
  else if ctype.take 4 ∈ ["DEC-".toList, "HPLT".toList] ∨
      (ctype.drop 1).take 3 = "LAT".toList then
    ("latitude".toList, none)
  else
    ("scalar".toList, none)

/-! ### Helper lemmas: `argmin` -/

theorem argminAux_eq_none {l : List ℝ} (h : argminAux l = none) : l = [] := by
  cases l with
  | nil => rfl
  | cons x xs =>
    exfalso
    simp only [argminAux] at h
    cases h' : argminAux xs with
    | none => rw [h'] at h; simp at h
    | some p => rw [h'] at h; obtain ⟨i, v⟩ := p; dsimp only at h; split at h <;> simp at h

theorem argminAux_spec : ∀ (l : List ℝ) (i : ℕ) (v : ℝ), argminAux l = some (i, v) →
    i < l.length ∧ l.getD i 0 = v ∧ ∀ j, j < l.length → v ≤ l.getD j 0 := by
  intro l
  induction l with
  | nil => intro i v h; simp [argminAux] at h
  | cons x xs ih =>
    intro i v h
    simp only [argminAux] at h
    cases h' : argminAux xs with
    | none =>
      rw [h'] at h
      simp only [Option.some.injEq, Prod.mk.injEq] at h
      obtain ⟨rfl, rfl⟩ := h
      have hxs : xs = [] := argminAux_eq_none h'
      subst hxs
      refine ⟨by simp, by simp, ?_⟩
      intro j hj
      have hj0 : j = 0 := Nat.lt_one_iff.mp (by simpa using hj)
      subst hj0
      simp
    | some p =>
      obtain ⟨i', v'⟩ := p
      rw [h'] at h
      dsimp only at h
      obtain ⟨hlen, hget, hmin⟩ := ih i' v' h'
      split at h <;> rename_i hx <;>
        simp only [Option.some.injEq, Prod.mk.injEq] at h <;> obtain ⟨rfl, rfl⟩ := h
      · refine ⟨by simp, by simp, ?_⟩
        intro j hj
        cases j with
        | zero => simp
        | succ j =>
          simp only [List.getD_cons_succ]
          exact le_trans hx (hmin j (by simpa using hj))
      · refine ⟨by simpa using Nat.succ_lt_succ hlen, by simpa using hget, ?_⟩
        intro j hj
        cases j with
        | zero => simpa using le_of_lt (lt_of_not_le hx)
        | succ j => simpa using hmin j (by simpa using hj)

theorem argmin_cons_eq_zero (x : ℝ) (xs : List ℝ) (h : ∀ y ∈ xs, x ≤ y) :
    argmin (x :: xs) = 0 := by
  simp only [argmin, argminAux]
  cases h' : argminAux xs with
  | none => rfl
  | some p =>
    obtain ⟨i, v⟩ := p
    obtain ⟨hlen, hget, -⟩ := argminAux_spec xs i v h'
    have hv : v ∈ xs := by
      rw [← hget, List.getD_eq_getElem xs 0 hlen]
      exact List.getElem_mem hlen
    dsimp only
    rw [if_pos (h v hv)]

/-! ### Helper lemmas: `searchsorted` and the table branches -/

theorem searchsortedLeft_eq (l : List ℚ) (v : ℝ) (n : ℕ) (hn : n ≤ l.length)
    (h1 : ∀ a ∈ l.take n, (a : ℝ) < v) (h2 : ∀ a ∈ l.drop n, v ≤ (a : ℝ)) :
    searchsortedLeft l v = n := by
  unfold searchsortedLeft
  rw [← List.take_append_drop n l, List.countP_append]
  rw [List.countP_eq_length.mpr, List.countP_eq_zero.mpr]
  · simp [List.length_take, Nat.min_eq_left hn]
  · intro a ha
    simp only [decide_eq_true_eq]
    intro hlt
    exact absurd hlt (not_lt.2 (h2 a ha))
  · intro a ha
    simpa using h1 a ha

theorem select_step_degree_bucket (dv : Quantity) (n : ℕ) (s : ℕ) (u : Quantity)
    (hgt : (Quantity.mk 1 .arcsec).toDeg < dv.toDeg)
    (h1 : ∀ a ∈ SelectStepDegree.degree_limits.take n,
      (a : ℝ) < dv.toVal ⟨1, .degree⟩)
    (h2 : ∀ a ∈ SelectStepDegree.degree_limits.drop n,
      dv.toVal ⟨1, .degree⟩ ≤ (a : ℝ))
    (hs : SelectStepDegree.degree_steps[n]? = some s)
    (hu : SelectStepDegree.degree_units[n]? = some u) :
    select_step_degree dv = some (Quantity.smul (s : ℝ) u) := by
  have hn : n ≤ SelectStepDegree.degree_limits.length := by
    obtain ⟨h, -⟩ := List.getElem?_eq_some.mp hs
    have hlen : SelectStepDegree.degree_steps.length = 26 := rfl
    have hlen' : SelectStepDegree.degree_limits.length = 26 := rfl
    omega
  have hss : searchsortedLeft SelectStepDegree.degree_limits
      (dv.toVal ⟨1, .degree⟩) = n := searchsortedLeft_eq _ _ _ hn h1 h2
  unfold select_step_degree
  rw [if_pos hgt]
  simp only [hss, hs, hu]

theorem select_step_hour_bucket (dv : Quantity) (n : ℕ) (s : ℕ) (u : Quantity)
    (hgt : (Quantity.mk 15 .arcsec).toDeg < dv.toDeg)
    (h1 : ∀ a ∈ SelectStepHour.hour_limits.take n,
      (a : ℝ) < dv.toVal ⟨1, .hourangle⟩)
    (h2 : ∀ a ∈ SelectStepHour.hour_limits.drop n,
      dv.toVal ⟨1, .hourangle⟩ ≤ (a : ℝ))
    (hs : SelectStepHour.hour_steps[n]? = some s)
    (hu : SelectStepHour.hour_units[n]? = some u) :
    select_step_hour dv = some (Quantity.smul (s : ℝ) u) := by
  have hn : n ≤ SelectStepHour.hour_limits.length := by
    obtain ⟨h, -⟩ := List.getElem?_eq_some.mp hs
    have hlen : SelectStepHour.hour_steps.length = 31 := rfl
    have hlen' : SelectStepHour.hour_limits.length = 31 := rfl
    omega
  have hss : searchsortedLeft SelectStepHour.hour_limits
      (dv.toVal ⟨1, .hourangle⟩) = n := searchsortedLeft_eq _ _ _ hn h1 h2
  unfold select_step_hour
  rw [if_pos hgt]
  simp only [hss, hs, hu]

/-! ### Helper lemmas: `select_step_scalar` -/

theorem select_step_scalar_eq_argmin (dv : ℝ) :
    select_step_scalar dv =
      10 ^ ((⌊log10 dv⌋ : ℝ) +
        sss_steps.getD
          (argmin (sss_steps.map (fun s => |log10 dv - (⌊log10 dv⌋ : ℝ) - s|))) 0) :=
  rfl

theorem select_step_scalar_spec (dv : ℝ) :
    ∃ i, i < 4 ∧
      select_step_scalar dv = 10 ^ ((⌊log10 dv⌋ : ℝ) + sss_steps.getD i 0) ∧
      ∀ j, j < 4 →
        |log10 dv - (⌊log10 dv⌋ : ℝ) - sss_steps.getD i 0| ≤
          |log10 dv - (⌊log10 dv⌋ : ℝ) - sss_steps.getD j 0| := by
  have hget : ∀ j, j < 4 →
      (sss_steps.map (fun s => |log10 dv - (⌊log10 dv⌋ : ℝ) - s|)).getD j 0 =
        |log10 dv - (⌊log10 dv⌋ : ℝ) - sss_steps.getD j 0| := by
    intro j hj
    interval_cases j <;> simp [sss_steps, List.getD]
  have hlen : (sss_steps.map (fun s => |log10 dv - (⌊log10 dv⌋ : ℝ) - s|)).length = 4 := by
    simp [sss_steps]
  cases h : argminAux (sss_steps.map (fun s => |log10 dv - (⌊log10 dv⌋ : ℝ) - s|)) with
  | none =>
    exfalso
    have := argminAux_eq_none h
    rw [this] at hlen
    simp at hlen
  | some p =>
    obtain ⟨i, v⟩ := p
    obtain ⟨hil, hiv, hmin⟩ := argminAux_spec _ i v h
    have hi4 : i < 4 := hlen ▸ hil
    have hargmin :
        argmin (sss_steps.map (fun s => |log10 dv - (⌊log10 dv⌋ : ℝ) - s|)) = i := by
      unfold argmin
      rw [h]
    refine ⟨i, hi4, ?_, ?_⟩
    · rw [select_step_scalar_eq_argmin, hargmin]
    · intro j hj
      calc |log10 dv - (⌊log10 dv⌋ : ℝ) - sss_steps.getD i 0|
          = v := by rw [← hget i hi4, hiv]
        _ ≤ (sss_steps.map (fun s => |log10 dv - (⌊log10 dv⌋ : ℝ) - s|)).getD j 0 :=
            hmin j (hlen ▸ hj)
        _ = |log10 dv - (⌊log10 dv⌋ : ℝ) - sss_steps.getD j 0| := hget j hj

/-! ### Helper lemmas: `log10` facts -/

theorem log10_one : log10 1 = 0 := Real.logb_one

theorem log10_ten : log10 10 = 1 := by
  rw [log10, Real.logb,
    div_self (Real.log_ne_zero_of_pos_of_ne_one (by norm_num) (by norm_num))]

theorem log10_two_pos : 0 < log10 2 := Real.logb_pos (by norm_num) (by norm_num)

theorem log10_two_le_five : log10 2 ≤ log10 5 :=
  Real.logb_le_logb_of_le (by norm_num) (by norm_num) (by norm_num)

theorem log10_five_lt_one : log10 5 < 1 := by
  have h := Real.logb_lt_logb (b := 10) (by norm_num) (x := 5) (by norm_num)
    (y := 10) (by norm_num)
  rwa [← log10, ← log10, log10_ten] at h

theorem log10_zpow (k : ℤ) : log10 ((10 : ℝ) ^ k) = k := by
  rw [log10, Real.logb, Real.log_zpow, mul_div_assoc,
    div_self (Real.log_ne_zero_of_pos_of_ne_one (by norm_num) (by norm_num)), mul_one]

theorem log10_rpow (x : ℝ) : log10 ((10 : ℝ) ^ x) = x :=
  Real.logb_rpow (by norm_num) (by norm_num)

theorem rpow_log10 {x : ℝ} (hx : 0 < x) : (10 : ℝ) ^ log10 x = x :=
  Real.rpow_logb (by norm_num) (by norm_num) hx

theorem select_step_scalar_mem (dv : ℝ) :
    ∃ k : ℤ, select_step_scalar dv = 10 ^ k ∨ select_step_scalar dv = 2 * 10 ^ k ∨
      select_step_scalar dv = 5 * 10 ^ k := by
  obtain ⟨i, hi4, heq, -⟩ := select_step_scalar_spec dv
  interval_cases i
  · refine ⟨⌊log10 dv⌋, Or.inl ?_⟩
    rw [heq, show sss_steps.getD 0 0 = log10 1 from rfl, log10_one, add_zero,
      Real.rpow_intCast]
  · refine ⟨⌊log10 dv⌋, Or.inr (Or.inl ?_)⟩
    rw [heq, show sss_steps.getD 1 0 = log10 2 from rfl,
      Real.rpow_add (by norm_num : (0:ℝ) < 10),
      show (10:ℝ) ^ log10 2 = 2 from rpow_log10 (by norm_num), Real.rpow_intCast,
      mul_comm]
  · refine ⟨⌊log10 dv⌋, Or.inr (Or.inr ?_)⟩
    rw [heq, show sss_steps.getD 2 0 = log10 5 from rfl,
      Real.rpow_add (by norm_num : (0:ℝ) < 10),
      show (10:ℝ) ^ log10 5 = 5 from rpow_log10 (by norm_num), Real.rpow_intCast,
      mul_comm]
  · refine ⟨⌊log10 dv⌋ + 1, Or.inl ?_⟩
    rw [heq, show sss_steps.getD 3 0 = log10 10 from rfl, log10_ten,
      show ((⌊log10 dv⌋ : ℝ) + 1) = ((⌊log10 dv⌋ + 1 : ℤ) : ℝ) by push_cast; ring,
      Real.rpow_intCast]

theorem select_step_scalar_closest (dv : ℝ) (k : ℤ) (m : ℝ)
    (hm : m = 1 ∨ m = 2 ∨ m = 5) :
    |log10 (select_step_scalar dv) - log10 dv| ≤
      |log10 (m * (10 : ℝ) ^ k) - log10 dv| := by
  obtain ⟨i, hi4, heq, hmin⟩ := select_step_scalar_spec dv
  set b : ℝ := (⌊log10 dv⌋ : ℝ) with hbdef
  set f : ℝ := log10 dv - b with hfdef
  have hf0 : 0 ≤ f := by
    rw [hfdef, hbdef]
    have := Int.floor_le (log10 dv)
    linarith
  have hf1 : f < 1 := by
    rw [hfdef, hbdef]
    have := Int.lt_floor_add_one (log10 dv)
    linarith
  have hm0 : (0:ℝ) < m := by rcases hm with rfl | rfl | rfl <;> norm_num
  have hlhs : log10 (select_step_scalar dv) = b + sss_steps.getD i 0 := by
    rw [heq]
    exact log10_rpow _
  have hrhs : log10 (m * (10:ℝ) ^ k) = log10 m + (k : ℝ) := by
    rw [log10, Real.logb_mul hm0.ne' (zpow_ne_zero k (by norm_num : (10:ℝ) ≠ 0)),
      ← log10, ← log10, log10_zpow]
  have hdv : log10 dv = b + f := by rw [hfdef]; ring
  rw [hlhs, hrhs, hdv,
    show b + sss_steps.getD i 0 - (b + f) = -(f - sss_steps.getD i 0) by ring,
    abs_neg]
  rcases lt_trichotomy k ⌊log10 dv⌋ with hk | hk | hk
  · -- k strictly below the decade of dv
    have hkr : (k : ℝ) ≤ b - 1 := by
      rw [hbdef]
      have h' : k + 1 ≤ ⌊log10 dv⌋ := Int.add_one_le_iff.mpr hk
      have h'' : (k : ℝ) + 1 ≤ (⌊log10 dv⌋ : ℝ) := by exact_mod_cast h'
      linarith
    have hlm_le : log10 m ≤ log10 5 := by
      rcases hm with rfl | rfl | rfl
      · rw [log10_one]
        exact le_trans log10_two_pos.le log10_two_le_five
      · exact log10_two_le_five
      · exact le_refl _
    have h0 := hmin 0 (by norm_num)
    rw [show sss_steps.getD 0 0 = log10 1 from rfl, log10_one, sub_zero] at h0
    have habs : |f| = f := abs_of_nonneg hf0
    have hX := neg_le_abs (log10 m + (k:ℝ) - (b + f))
    have hl51 := log10_five_lt_one
    linarith
  · -- same decade: the candidate is one of the first three table entries
    have hkb : (k : ℝ) = b := by rw [hk, hbdef]
    rw [show log10 m + (k:ℝ) - (b + f) = -(f - log10 m) by rw [hkb]; ring, abs_neg]
    rcases hm with rfl | rfl | rfl
    · have h0 := hmin 0 (by norm_num)
      rwa [show sss_steps.getD 0 0 = log10 1 from rfl] at h0
    · have h1 := hmin 1 (by norm_num)
      rwa [show sss_steps.getD 1 0 = log10 2 from rfl] at h1
    · have h2 := hmin 2 (by norm_num)
      rwa [show sss_steps.getD 2 0 = log10 5 from rfl] at h2
  · -- k strictly above the decade of dv
    have hkr : b + 1 ≤ (k : ℝ) := by
      rw [hbdef]
      have h' : ⌊log10 dv⌋ + 1 ≤ k := Int.add_one_le_iff.mpr hk
      have h'' : (⌊log10 dv⌋ : ℝ) + 1 ≤ (k : ℝ) := by exact_mod_cast h'
      linarith
    have hlm0 : 0 ≤ log10 m := by
      rcases hm with rfl | rfl | rfl
      · rw [log10_one]
      · exact log10_two_pos.le
      · exact le_trans log10_two_pos.le log10_two_le_five
    have h3 := hmin 3 (by norm_num)
    rw [show sss_steps.getD 3 0 = log10 10 from rfl, log10_ten] at h3
    have habs3 : |f - 1| = 1 - f := by
      rw [abs_of_nonpos (by linarith)]
      ring
    have hX := le_abs_self (log10 m + (k:ℝ) - (b + f))
    linarith

theorem select_step_scalar_concrete : select_step_scalar 0.0012 = 0.001 := by
  have hpos : (0 : ℝ) < 0.0012 := by norm_num
  have hfloor : ⌊log10 (0.0012 : ℝ)⌋ = -3 := by
    have h1 : ((-3:ℤ) : ℝ) ≤ log10 (0.0012 : ℝ) := by
      rw [log10, Real.le_logb_iff_rpow_le (by norm_num) hpos, Real.rpow_intCast]
      norm_num
    have h2 : log10 (0.0012 : ℝ) < ((-3:ℤ) : ℝ) + 1 := by
      rw [log10, show ((-3:ℤ):ℝ) + 1 = ((-2:ℤ):ℝ) by push_cast; ring,
        Real.logb_lt_iff_lt_rpow (by norm_num) hpos, Real.rpow_intCast]
      norm_num
    exact Int.floor_eq_iff.mpr ⟨h1, h2⟩
  have hfrac : log10 (0.0012 : ℝ) - ((-3 : ℤ) : ℝ) = log10 1.2 := by
    have he : (0.0012 : ℝ) = 1.2 * (10:ℝ) ^ (-3 : ℤ) := by norm_num
    rw [he, log10, Real.logb_mul (by norm_num) (zpow_ne_zero _ (by norm_num)),
      ← log10, ← log10, log10_zpow]
    push_cast
    ring
  have hfpos : 0 < log10 (1.2 : ℝ) := by
    rw [log10]
    exact Real.logb_pos (by norm_num) (by norm_num)
  have hff : log10 (1.2 : ℝ) + log10 (1.2 : ℝ) = log10 (1.44 : ℝ) := by
    rw [log10, log10, ← Real.logb_mul (by norm_num) (by norm_num)]
    norm_num
  have h2' : log10 (1.44 : ℝ) ≤ log10 2 := by
    rw [log10, log10]
    exact Real.logb_le_logb_of_le (by norm_num) (by norm_num) (by norm_num)
  have h5' : log10 (1.44 : ℝ) ≤ log10 5 := by
    rw [log10, log10]
    exact Real.logb_le_logb_of_le (by norm_num) (by norm_num) (by norm_num)
  have h10' : log10 (1.44 : ℝ) ≤ 1 := by
    have h := Real.logb_le_logb_of_le (b := 10) (by norm_num) (x := (1.44:ℝ))
      (by norm_num) (y := 10) (by norm_num)
    calc log10 (1.44 : ℝ) = Real.logb 10 (1.44 : ℝ) := rfl
      _ ≤ Real.logb 10 10 := h
      _ = 1 := log10_ten
  rw [select_step_scalar_eq_argmin, hfloor]
  simp only [hfrac]
  simp only [sss_steps, List.map_cons, List.map_nil]
  have habs0 : |log10 (1.2:ℝ) - log10 1| = log10 (1.2:ℝ) := by
    rw [log10_one, sub_zero, abs_of_pos hfpos]
  have hzero : argmin [|log10 (1.2:ℝ) - log10 1|, |log10 (1.2:ℝ) - log10 2|,
      |log10 (1.2:ℝ) - log10 5|, |log10 (1.2:ℝ) - log10 10|] = 0 := by
    apply argmin_cons_eq_zero
    intro y hy
    rw [habs0]
    fin_cases hy
    · linarith [neg_le_abs (log10 (1.2:ℝ) - log10 2), hff, h2']
    · linarith [neg_le_abs (log10 (1.2:ℝ) - log10 5), hff, h5']
    · rw [log10_ten]
      linarith [neg_le_abs (log10 (1.2:ℝ) - 1), hff, h10']
  rw [hzero, show ([log10 1, log10 2, log10 5, log10 10].getD 0 0) = log10 1 from rfl,
    log10_one, add_zero, Real.rpow_intCast]
  norm_num

/-! ### Helper lemmas: the identifier loop -/

theorem run_identifiers_all_none (ids : List Identifier) (wcs : WCS)
    (h : ∀ g ∈ ids, g wcs = none) :
    run_identifiers ids wcs = (none, ids.length) := by
  induction ids with
  | nil => rfl
  | cons f rest ih =>
    simp only [run_identifiers]
    rw [h f (List.mem_cons_self f rest)]
    dsimp only
    rw [ih (fun g hg => h g (List.mem_cons_of_mem _ hg))]
    simp

theorem run_identifiers_first (pre : List Identifier) (f : Identifier)
    (post : List Identifier) (wcs : WCS) (c : FrameClass)
    (hpre : ∀ g ∈ pre, g wcs = none) (hf : f wcs = some c) :
    run_identifiers (pre ++ f :: post) wcs = (some c, pre.length + 1) := by
  induction pre with
  | nil =>
    simp only [List.nil_append, run_identifiers]
    rw [hf]
    rfl
  | cons g rest ih =>
    simp only [List.cons_append, run_identifiers]
    rw [hpre g (List.mem_cons_self g rest)]
    dsimp only
    simp only [List.append_eq]
    rw [ih (fun g' hg' => hpre g' (List.mem_cons_of_mem _ hg'))]
    simp

theorem run_identifiers_none_iff (ids : List Identifier) (wcs : WCS) :
    (run_identifiers ids wcs).1 = none ↔ ∀ g ∈ ids, g wcs = none := by
  induction ids with
  | nil => simp [run_identifiers]
  | cons f rest ih =>
    cases hf : f wcs with
    | some c =>
      have hred : (run_identifiers (f :: rest) wcs).1 = some c := by
        simp [run_identifiers, hf]
      rw [hred]
      constructor
      · intro h
        exact (Option.some_ne_none c h).elim
      · intro h
        exact absurd (h f (List.mem_cons_self f rest)) (by simp [hf])
    | none =>
      have hred : (run_identifiers (f :: rest) wcs).1 = (run_identifiers rest wcs).1 := by
        simp [run_identifiers, hf]
      rw [hred, ih]
      constructor
      · intro h g hg
        rcases List.mem_cons.mp hg with rfl | hg'
        · exact hf
        · exact h g hg'
      · intro h g hg
        exact h g (List.mem_cons_of_mem _ hg)

/-! ### Helper lemmas: evaluated breakpoint tables -/

theorem degree_limits_take_17 : SelectStepDegree.degree_limits.take 17 =
    [3/2/3600, 5/2/3600, 7/2/3600, 8/3600, 11/3600, 18/3600, 25/3600, 45/3600,
     3/2/60, 5/2/60, 7/2/60, 8/60, 11/60, 18/60, 25/60, 45/60, 3/2] := rfl

theorem degree_limits_drop_17 : SelectStepDegree.degree_limits.drop 17 =
    [3, 7, 13, 20, 40, 70, 120, 270, 520] := rfl

theorem degree_limits_eq : SelectStepDegree.degree_limits =
    [3/2/3600, 5/2/3600, 7/2/3600, 8/3600, 11/3600, 18/3600, 25/3600, 45/3600,
     3/2/60, 5/2/60, 7/2/60, 8/60, 11/60, 18/60, 25/60, 45/60,
     3/2, 3, 7, 13, 20, 40, 70, 120, 270, 520] := rfl

theorem hour_limits_eq : SelectStepHour.hour_limits =
    [3/2/3600, 5/2/3600, 7/2/3600, 9/2/3600, 11/2/3600, 8/3600, 11/3600,
     14/3600, 18/3600, 25/3600, 45/3600,
     3/2/60, 5/2/60, 7/2/60, 9/2/60, 11/2/60, 8/60, 11/60, 14/60, 18/60,
     25/60, 45/60,
     3/2, 5/2, 7/2, 5, 7, 10, 15, 21, 36] := rfl

/-! ### Claim theorems -/

/-- C1: for every positive real `dv`, `select_step_scalar dv` is a member of
`{10^k, 2*10^k, 5*10^k : k ∈ ℤ}` and is the closest such candidate to `dv`
in log10-space (it minimises `|log10 result - log10 dv|` over all
candidates); in particular `select_step_scalar 0.0012 = 0.001`. -/
theorem C1_select_step_scalar_nice :
    (∀ dv : ℝ, 0 < dv →
      (∃ k : ℤ, select_step_scalar dv = 10 ^ k ∨
        select_step_scalar dv = 2 * 10 ^ k ∨ select_step_scalar dv = 5 * 10 ^ k) ∧
      ∀ (k : ℤ) (m : ℝ), m = 1 ∨ m = 2 ∨ m = 5 →
        |log10 (select_step_scalar dv) - log10 dv| ≤
          |log10 (m * (10 : ℝ) ^ k) - log10 dv|) ∧
    select_step_scalar 0.0012 = 0.001 :=
  ⟨fun dv _ => ⟨select_step_scalar_mem dv,
    fun k m hm => select_step_scalar_closest dv k m hm⟩,
   select_step_scalar_concrete⟩

/-- Witness for C1 at the concrete input `dv = 3`. -/
theorem C1_select_step_scalar_nice_witness :
    (0:ℝ) < 3 ∧
      (∃ k : ℤ, select_step_scalar 3 = 10 ^ k ∨
        select_step_scalar 3 = 2 * 10 ^ k ∨ select_step_scalar 3 = 5 * 10 ^ k) :=
  ⟨by norm_num, (C1_select_step_scalar_nice.1 3 (by norm_num)).1⟩

/-- C2: for every input strictly above the table threshold (1 arcsec for
`select_step_degree`, 15 arcsec for `select_step_hour`) lying in bucket `n`
of the concatenated ascending breakpoint array (all breakpoints before
index `n` are below the value, all from index `n` on are at or above it),
the returned quantity is `step * unit` of table row `n` — the row at the
searchsorted index of `dv` converted to degrees (resp. hourangle). -/
theorem C2_table_lookup :
    (∀ (dv : Quantity) (n s : ℕ) (u : Quantity),
      (Quantity.mk 1 .arcsec).toDeg < dv.toDeg →
      (∀ a ∈ SelectStepDegree.degree_limits.take n,
        (a : ℝ) < dv.toVal ⟨1, .degree⟩) →
      (∀ a ∈ SelectStepDegree.degree_limits.drop n,
        dv.toVal ⟨1, .degree⟩ ≤ (a : ℝ)) →
      SelectStepDegree.degree_steps[n]? = some s →
      SelectStepDegree.degree_units[n]? = some u →
      select_step_degree dv = some (Quantity.smul (s : ℝ) u)) ∧
    (∀ (dv : Quantity) (n s : ℕ) (u : Quantity),
      (Quantity.mk 15 .arcsec).toDeg < dv.toDeg →
      (∀ a ∈ SelectStepHour.hour_limits.take n,
        (a : ℝ) < dv.toVal ⟨1, .hourangle⟩) →
      (∀ a ∈ SelectStepHour.hour_limits.drop n,
        dv.toVal ⟨1, .hourangle⟩ ≤ (a : ℝ)) →
      SelectStepHour.hour_steps[n]? = some s →
      SelectStepHour.hour_units[n]? = some u →
      select_step_hour dv = some (Quantity.smul (s : ℝ) u)) :=
  ⟨select_step_degree_bucket, select_step_hour_bucket⟩

/-- Witness for C2: `dv = 2 degree` lies in bucket 17 (between the
breakpoints 1.5 and 3 degree), whose table row is step 2, unit degree. -/
theorem C2_table_lookup_witness :
    select_step_degree ⟨2, AngUnit.degree⟩ =
      some (Quantity.smul ((2 : ℕ) : ℝ) ⟨1, AngUnit.degree⟩) :=
  C2_table_lookup.1 ⟨2, .degree⟩ 17 2 ⟨1, .degree⟩
    (by norm_num [Quantity.toDeg, AngUnit.degFactor])
    (by
      intro a ha
      rw [degree_limits_take_17] at ha
      have hv : (Quantity.mk 2 AngUnit.degree).toVal ⟨1, .degree⟩ = 2 := by
        norm_num [Quantity.toVal, Quantity.toDeg, AngUnit.degFactor]
      rw [hv]
      fin_cases ha <;> norm_num)
    (by
      intro a ha
      rw [degree_limits_drop_17] at ha
      have hv : (Quantity.mk 2 AngUnit.degree).toVal ⟨1, .degree⟩ = 2 := by
        norm_num [Quantity.toVal, Quantity.toDeg, AngUnit.degFactor]
      rw [hv]
      fin_cases ha <;> norm_num)
    rfl rfl

/-- Counterexample to C3 as stated: `dv = 3 degree` is exactly the
breakpoint at index 17 of the concatenated degree table.  The claim says
the lookup resolves to the higher of the two adjacent indices — row 18,
step 5 degree — but `searchsorted` with the default `side="left"` counts
only entries strictly below `dv`, so the code resolves to row 17 and
returns step 2 degree. -/
theorem C3_breakpoint_counterexample :
    SelectStepDegree.degree_limits[17]? = some 3 ∧
    SelectStepDegree.degree_steps[17]? = some 2 ∧
    SelectStepDegree.degree_steps[18]? = some 5 ∧
    SelectStepDegree.degree_units[17]? = some ⟨1, AngUnit.degree⟩ ∧
    SelectStepDegree.degree_units[18]? = some ⟨1, AngUnit.degree⟩ ∧
    select_step_degree ⟨3, AngUnit.degree⟩ =
      some (Quantity.smul ((2 : ℕ) : ℝ) ⟨1, AngUnit.degree⟩) ∧
    select_step_degree ⟨3, AngUnit.degree⟩ ≠
      some (Quantity.smul ((5 : ℕ) : ℝ) ⟨1, AngUnit.degree⟩) := by
  have hval : select_step_degree ⟨3, AngUnit.degree⟩ =
      some (Quantity.smul ((2 : ℕ) : ℝ) ⟨1, AngUnit.degree⟩) := by
    apply select_step_degree_bucket ⟨3, .degree⟩ 17 2 ⟨1, .degree⟩
    · norm_num [Quantity.toDeg, AngUnit.degFactor]
    · intro a ha
      rw [degree_limits_take_17] at ha
      have hv : (Quantity.mk 3 AngUnit.degree).toVal ⟨1, .degree⟩ = 3 := by
        norm_num [Quantity.toVal, Quantity.toDeg, AngUnit.degFactor]
      rw [hv]
      fin_cases ha <;> norm_num
    · intro a ha
      rw [degree_limits_drop_17] at ha
      have hv : (Quantity.mk 3 AngUnit.degree).toVal ⟨1, .degree⟩ = 3 := by
        norm_num [Quantity.toVal, Quantity.toDeg, AngUnit.degFactor]
      rw [hv]
      fin_cases ha <;> norm_num
    · rfl
    · rfl
  refine ⟨rfl, rfl, rfl, rfl, rfl, hval, ?_⟩
  rw [hval]
  intro hcon
  simp only [Option.some.injEq, Quantity.smul, Quantity.mk.injEq] at hcon
  norm_num at hcon

/-- C3 amended: in the table branches, an input `dv` exactly equal to a
breakpoint value resolves to the LOWER of the two adjacent table indices —
the row of the bucket whose (inclusive) upper edge is that breakpoint —
because `searchsorted` with the default `side="left"` counts only entries
strictly below `dv`. -/
theorem C3_breakpoint_lower_index :
    (∀ (dv : Quantity) (n s : ℕ) (u : Quantity) (b : ℚ),
      (Quantity.mk 1 .arcsec).toDeg < dv.toDeg →
      SelectStepDegree.degree_limits[n]? = some b →
      dv.toVal ⟨1, .degree⟩ = (b : ℝ) →
      (∀ a ∈ SelectStepDegree.degree_limits.take n, a < b) →
      (∀ a ∈ SelectStepDegree.degree_limits.drop n, b ≤ a) →
      SelectStepDegree.degree_steps[n]? = some s →
      SelectStepDegree.degree_units[n]? = some u →
      select_step_degree dv = some (Quantity.smul (s : ℝ) u)) ∧
    (∀ (dv : Quantity) (n s : ℕ) (u : Quantity) (b : ℚ),
      (Quantity.mk 15 .arcsec).toDeg < dv.toDeg →
      SelectStepHour.hour_limits[n]? = some b →
      dv.toVal ⟨1, .hourangle⟩ = (b : ℝ) →
      (∀ a ∈ SelectStepHour.hour_limits.take n, a < b) →
      (∀ a ∈ SelectStepHour.hour_limits.drop n, b ≤ a) →
      SelectStepHour.hour_steps[n]? = some s →
      SelectStepHour.hour_units[n]? = some u →
      select_step_hour dv = some (Quantity.smul (s : ℝ) u)) := by
  constructor
  · intro dv n s u b hgt _ hveq htake hdrop hs hu
    apply select_step_degree_bucket dv n s u hgt
    · intro a ha
      rw [hveq]
      exact_mod_cast htake a ha
    · intro a ha
      rw [hveq]
      exact_mod_cast hdrop a ha
    · exact hs
    · exact hu
  · intro dv n s u b hgt _ hveq htake hdrop hs hu
    apply select_step_hour_bucket dv n s u hgt
    · intro a ha
      rw [hveq]
      exact_mod_cast htake a ha
    · intro a ha
      rw [hveq]
      exact_mod_cast hdrop a ha
    · exact hs
    · exact hu

/-- Witness for the amended C3 at the breakpoint `dv = 3 degree` (table
index 17): the code returns row 17 (step 2 degree), the lower of the two
adjacent rows. -/
theorem C3_breakpoint_lower_index_witness :
    select_step_degree ⟨3, AngUnit.degree⟩ =
      some (Quantity.smul ((2 : ℕ) : ℝ) ⟨1, AngUnit.degree⟩) :=
  C3_breakpoint_lower_index.1 ⟨3, .degree⟩ 17 2 ⟨1, .degree⟩ 3
    (by norm_num [Quantity.toDeg, AngUnit.degFactor])
    rfl
    (by norm_num [Quantity.toVal, Quantity.toDeg, AngUnit.degFactor])
    (by
      intro a ha
      rw [degree_limits_take_17] at ha
      fin_cases ha <;> norm_num)
    (by
      intro a ha
      rw [degree_limits_drop_17] at ha
      fin_cases ha <;> norm_num)
    rfl rfl

/-- C4: for every `dv` at or below the threshold, `select_step_degree`
(threshold 1 arcsec) returns `select_step_scalar(dv in arcsec) * arcsec`,
and `select_step_hour` (threshold 15 arcsec) returns
`select_step_scalar(dv in units of 15 arcsec) * (15 arcsec)`; in
particular `select_step_degree (0.5 arcsec)` takes the scalar branch. -/
theorem C4_scalar_branch :
    (∀ dv : Quantity, dv.toDeg ≤ (Quantity.mk 1 .arcsec).toDeg →
      select_step_degree dv =
        some (Quantity.smul (select_step_scalar (dv.toVal ⟨1, .arcsec⟩))
          ⟨1, .arcsec⟩)) ∧
    (∀ dv : Quantity, dv.toDeg ≤ (Quantity.mk 15 .arcsec).toDeg →
      select_step_hour dv =
        some (Quantity.smul (select_step_scalar (dv.toVal ⟨15, .arcsec⟩))
          ⟨15, .arcsec⟩)) ∧
    select_step_degree ⟨0.5, AngUnit.arcsec⟩ =
      some (Quantity.smul (select_step_scalar 0.5) ⟨1, AngUnit.arcsec⟩) := by
  have hdeg : ∀ dv : Quantity, dv.toDeg ≤ (Quantity.mk 1 .arcsec).toDeg →
      select_step_degree dv =
        some (Quantity.smul (select_step_scalar (dv.toVal ⟨1, .arcsec⟩))
          ⟨1, .arcsec⟩) := by
    intro dv h
    unfold select_step_degree
    rw [if_neg (not_lt.mpr h)]
  refine ⟨hdeg, ?_, ?_⟩
  · intro dv h
    unfold select_step_hour
    rw [if_neg (not_lt.mpr h)]
  · have h05 : (Quantity.mk 0.5 AngUnit.arcsec).toDeg ≤
        (Quantity.mk 1 .arcsec).toDeg := by
      norm_num [Quantity.toDeg, AngUnit.degFactor]
    rw [hdeg ⟨0.5, .arcsec⟩ h05]
    have hv : (Quantity.mk 0.5 AngUnit.arcsec).toVal ⟨1, .arcsec⟩ = 0.5 := by
      norm_num [Quantity.toVal, Quantity.toDeg, AngUnit.degFactor]
    rw [hv]

/-- Witness for C4 at `dv = 1 arcsec` (exactly the degree threshold, so the
scalar branch is taken). -/
theorem C4_scalar_branch_witness :
    select_step_degree ⟨1, AngUnit.arcsec⟩ =
      some (Quantity.smul
        (select_step_scalar ((Quantity.mk 1 AngUnit.arcsec).toVal ⟨1, .arcsec⟩))
        ⟨1, .arcsec⟩) :=
  C4_scalar_branch.1 ⟨1, .arcsec⟩ (le_refl _)

/-- C8: the table branches are partial.  For `dv` strictly above the last
breakpoint (520 degree, resp. 36 hourangle) `searchsorted` returns the
length of the step list, and the subsequent indexing fails (an
`IndexError`, modelled as `none`) instead of returning a step. -/
theorem C8_table_overflow :
    (∀ dv : Quantity, (Quantity.mk 520 .degree).toDeg < dv.toDeg →
      searchsortedLeft SelectStepDegree.degree_limits (dv.toVal ⟨1, .degree⟩) =
        SelectStepDegree.degree_steps.length ∧
      select_step_degree dv = none) ∧
    (∀ dv : Quantity, (Quantity.mk 36 .hourangle).toDeg < dv.toDeg →
      searchsortedLeft SelectStepHour.hour_limits (dv.toVal ⟨1, .hourangle⟩) =
        SelectStepHour.hour_steps.length ∧
      select_step_hour dv = none) := by
  constructor
  · intro dv hgt
    have h520 : (Quantity.mk 520 AngUnit.degree).toDeg = 520 := by
      norm_num [Quantity.toDeg, AngUnit.degFactor]
    rw [h520] at hgt
    have hv : dv.toVal ⟨1, .degree⟩ = dv.toDeg := by
      simp [Quantity.toVal, Quantity.toDeg, AngUnit.degFactor]
    have hcount : searchsortedLeft SelectStepDegree.degree_limits
        (dv.toVal ⟨1, .degree⟩) = SelectStepDegree.degree_limits.length := by
      unfold searchsortedLeft
      apply List.countP_eq_length.mpr
      intro a ha
      simp only [decide_eq_true_eq]
      rw [hv]
      have hb : a ≤ (520:ℚ) := by
        rw [degree_limits_eq] at ha
        fin_cases ha <;> norm_num
      have hb' : (a:ℝ) ≤ 520 := by exact_mod_cast hb
      linarith
    refine ⟨by rw [hcount]; rfl, ?_⟩
    have hgt' : (Quantity.mk 1 AngUnit.arcsec).toDeg < dv.toDeg := by
      have h1 : (Quantity.mk 1 AngUnit.arcsec).toDeg = 1/3600 := by
        norm_num [Quantity.toDeg, AngUnit.degFactor]
      rw [h1]
      linarith
    unfold select_step_degree
    rw [if_pos hgt']
    simp only [hcount]
    rfl
  · intro dv hgt
    have h36 : (Quantity.mk 36 AngUnit.hourangle).toDeg = 540 := by
      norm_num [Quantity.toDeg, AngUnit.degFactor]
    rw [h36] at hgt
    have hv : dv.toVal ⟨1, .hourangle⟩ = dv.toDeg / 15 := by
      simp [Quantity.toVal, Quantity.toDeg, AngUnit.degFactor]
    have hcount : searchsortedLeft SelectStepHour.hour_limits
        (dv.toVal ⟨1, .hourangle⟩) = SelectStepHour.hour_limits.length := by
      unfold searchsortedLeft
      apply List.countP_eq_length.mpr
      intro a ha
      simp only [decide_eq_true_eq]
      rw [hv]
      have hb : a ≤ (36:ℚ) := by
        rw [hour_limits_eq] at ha
        fin_cases ha <;> norm_num
      have hb' : (a:ℝ) ≤ 36 := by exact_mod_cast hb
      linarith
    refine ⟨by rw [hcount]; rfl, ?_⟩
    have hgt' : (Quantity.mk 15 AngUnit.arcsec).toDeg < dv.toDeg := by
      have h15 : (Quantity.mk 15 AngUnit.arcsec).toDeg = 15/3600 := by
        norm_num [Quantity.toDeg, AngUnit.degFactor]
      rw [h15]
      linarith
    unfold select_step_hour
    rw [if_pos hgt']
    simp only [hcount]
    rfl

/-- Witness for C8 at `dv = 521 degree`. -/
theorem C8_table_overflow_witness :
    searchsortedLeft SelectStepDegree.degree_limits
        ((Quantity.mk 521 AngUnit.degree).toVal ⟨1, .degree⟩) =
      SelectStepDegree.degree_steps.length ∧
    select_step_degree ⟨521, AngUnit.degree⟩ = none :=
  C8_table_overflow.1 ⟨521, .degree⟩
    (by norm_num [Quantity.toDeg, AngUnit.degFactor])

/-- C5: a WCS whose first ctype starts with `RA--` and second with `DEC-`
resolves to FK5; one whose first starts with `GLON` and second with `GLAT`
resolves to Galactic (e.g. `GLON-CAR`/`GLAT-CAR`); in both cases zero
registered identifier callbacks are invoked. -/
theorem C5_builtin_frames :
    (∀ (ids : List Identifier) (wcs : WCS),
      wcs.ctype0.take 4 = "RA--".toList → wcs.ctype1.take 4 = "DEC-".toList →
      get_coordinate_frame_instr ids wcs = (Except.ok FrameClass.FK5, 0)) ∧
    (∀ (ids : List Identifier) (wcs : WCS),
      wcs.ctype0.take 4 = "GLON".toList → wcs.ctype1.take 4 = "GLAT".toList →
      get_coordinate_frame_instr ids wcs = (Except.ok FrameClass.Galactic, 0)) ∧
    (∀ ids : List Identifier,
      get_coordinate_frame_instr ids ⟨"GLON-CAR".toList, "GLAT-CAR".toList⟩ =
        (Except.ok FrameClass.Galactic, 0)) := by
  have hglon : ∀ (ids : List Identifier) (wcs : WCS),
      wcs.ctype0.take 4 = "GLON".toList → wcs.ctype1.take 4 = "GLAT".toList →
      get_coordinate_frame_instr ids wcs = (Except.ok FrameClass.Galactic, 0) := by
    intro ids wcs h0 h1
    have hne : ¬(wcs.ctype0.take 4 = "RA--".toList ∧
        wcs.ctype1.take 4 = "DEC-".toList) := by
      rintro ⟨ha, -⟩
      rw [h0] at ha
      exact absurd ha (by decide)
    unfold get_coordinate_frame_instr
    rw [if_neg hne, if_pos ⟨h0, h1⟩]
  refine ⟨?_, hglon, ?_⟩
  · intro ids wcs h0 h1
    unfold get_coordinate_frame_instr
    rw [if_pos ⟨h0, h1⟩]
  · intro ids
    exact hglon ids ⟨"GLON-CAR".toList, "GLAT-CAR".toList⟩ (by decide) (by decide)

/-- Witness for C5 with concrete ctypes `RA---TAN`/`DEC--TAN` and a
registry holding one identifier (which is not consulted). -/
theorem C5_builtin_frames_witness :
    get_coordinate_frame_instr [fun _ => some (FrameClass.custom 7)]
        ⟨"RA---TAN".toList, "DEC--TAN".toList⟩ = (Except.ok FrameClass.FK5, 0) :=
  C5_builtin_frames.1 [fun _ => some (FrameClass.custom 7)]
    ⟨"RA---TAN".toList, "DEC--TAN".toList⟩ (by decide) (by decide)

/-- C6: when neither built-in ctype pattern matches, the registered
identifiers are called in registration order and the first non-`None`
result is returned, without calling the later identifiers (the invocation
count is the position of the first hit); a `ValueError` is raised iff every
registered identifier returns `None` (including an empty registry), and its
message contains both full ctype codes. -/
theorem C6_identifier_fallback (ids : List Identifier) (wcs : WCS)
    (hx : ¬(wcs.ctype0.take 4 = "RA--".toList ∧
      wcs.ctype1.take 4 = "DEC-".toList))
    (hg : ¬(wcs.ctype0.take 4 = "GLON".toList ∧
      wcs.ctype1.take 4 = "GLAT".toList)) :
    (∀ (pre : List Identifier) (f : Identifier) (post : List Identifier)
        (c : FrameClass),
      ids = pre ++ f :: post → (∀ g ∈ pre, g wcs = none) → f wcs = some c →
      get_coordinate_frame_instr ids wcs = (Except.ok c, pre.length + 1)) ∧
    ((∃ e, get_coordinate_frame ids wcs = Except.error e) ↔
      ∀ g ∈ ids, g wcs = none) ∧
    ((∀ g ∈ ids, g wcs = none) →
      get_coordinate_frame ids wcs = Except.error (frame_not_supported_msg wcs) ∧
      (∃ s t, frame_not_supported_msg wcs = s ++ wcs.ctype0 ++ t) ∧
      (∃ s t, frame_not_supported_msg wcs = s ++ wcs.ctype1 ++ t)) := by
  have hred : get_coordinate_frame_instr ids wcs =
      (match run_identifiers ids wcs with
       | (some c, k) => (Except.ok c, k)
       | (none, k) => (Except.error (frame_not_supported_msg wcs), k)) := by
    unfold get_coordinate_frame_instr
    rw [if_neg hx, if_neg hg]
  refine ⟨?_, ?_, ?_⟩
  · intro pre f post c hids hpre hf
    subst hids
    rw [hred, run_identifiers_first pre f post wcs c hpre hf]
  · constructor
    · rintro ⟨e, he⟩
      rw [← run_identifiers_none_iff]
      rcases hrun : run_identifiers ids wcs with ⟨o, k⟩
      cases o with
      | none => rfl
      | some c =>
        rw [get_coordinate_frame, hred, hrun] at he
        exact absurd he (by simp)
    · intro h
      exact ⟨frame_not_supported_msg wcs, by
        rw [get_coordinate_frame, hred, run_identifiers_all_none ids wcs h]⟩
  · intro h
    refine ⟨?_, ?_, ?_⟩
    · rw [get_coordinate_frame, hred, run_identifiers_all_none ids wcs h]
    · exact ⟨"Frame not supported: ".toList, "/".toList ++ wcs.ctype1, by
        simp [frame_not_supported_msg]⟩
    · exact ⟨"Frame not supported: ".toList ++ wcs.ctype0 ++ "/".toList, [], by
        simp [frame_not_supported_msg]⟩

/-- Witness for C6: an empty registry and ctypes `ABCD-X`/`EFGH-Y` raise
the documented error. -/
theorem C6_identifier_fallback_witness :
    get_coordinate_frame [] ⟨"ABCD-X".toList, "EFGH-Y".toList⟩ =
      Except.error (frame_not_supported_msg ⟨"ABCD-X".toList, "EFGH-Y".toList⟩) :=
  ((C6_identifier_fallback [] ⟨"ABCD-X".toList, "EFGH-Y".toList⟩
      (by decide) (by decide)).2.2 (by simp)).1

/-- C7: the registry is a single mutable list: `register_frame_identifier`
appends at the end, preserving all previously registered identifiers and
their order, and `reset_frame_identifiers` leaves the registry empty
regardless of its prior contents. -/
theorem C7_registry :
    ∀ (reg : List Identifier) (func : Identifier),
      (register_frame_identifier func reg).length = reg.length + 1 ∧
      (∀ i, i < reg.length →
        (register_frame_identifier func reg)[i]? = reg[i]?) ∧
      (register_frame_identifier func reg)[reg.length]? = some func ∧
      reset_frame_identifiers reg = [] := by
  intro reg func
  refine ⟨by simp [register_frame_identifier], ?_, ?_, rfl⟩
  · intro i hi
    unfold register_frame_identifier
    exact List.getElem?_append_left hi
  · unfold register_frame_identifier
    exact List.getElem?_concat_length reg func

/-- Witness for C7 on a one-element registry. -/
theorem C7_registry_witness :
    (register_frame_identifier (fun _ => some FrameClass.FK5)
        [fun _ => none])[0]? = ([fun _ => none] : List Identifier)[0]? :=
  (C7_registry [fun _ => none] (fun _ => some FrameClass.FK5)).2.1 0 (by norm_num)

/-- C9: `coord_type_from_ctype` is total: for every ctype it returns
exactly one of `(longitude, None)`, `(longitude, 180)`, `(latitude, None)`,
`(scalar, None)`; the wrap 180 is returned iff the first four characters
are `HPLN`; and a ctype matching none of the listed patterns yields
`(scalar, None)`. -/
theorem C9_coord_type_total (ctype : List Char) :
    (coord_type_from_ctype ctype = ("longitude".toList, none) ∨
     coord_type_from_ctype ctype = ("longitude".toList, some 180) ∨
     coord_type_from_ctype ctype = ("latitude".toList, none) ∨
     coord_type_from_ctype ctype = ("scalar".toList, none)) ∧
    ((coord_type_from_ctype ctype).2 = some 180 ↔
      ctype.take 4 = "HPLN".toList) ∧
    (ctype.take 4 ≠ "RA--".toList → (ctype.drop 1).take 3 ≠ "LON".toList →
      ctype.take 4 ≠ "HPLN".toList → ctype.take 4 ≠ "DEC-".toList →
      ctype.take 4 ≠ "HPLT".toList → (ctype.drop 1).take 3 ≠ "LAT".toList →
      coord_type_from_ctype ctype = ("scalar".toList, none)) := by
  unfold coord_type_from_ctype
  split_ifs with h1 h2 h3
  · refine ⟨Or.inl rfl, ?_, ?_⟩
    · constructor
      · intro habs
        simp at habs
      · intro hh
        rcases h1 with ha | hb
        · rw [List.mem_singleton] at ha
          rw [hh] at ha
          exact absurd ha (by decide)
        · have hp : (ctype.drop 1).take 3 = "PLN".toList := by
            rw [← List.drop_take 4 1 ctype, hh]
            decide
          rw [hp] at hb
          exact absurd hb (by decide)
    · intro hr hlon _ _ _ _
      exfalso
      rcases h1 with ha | hb
      · rw [List.mem_singleton] at ha
        exact hr ha
      · exact hlon hb
  · have hh : ctype.take 4 = "HPLN".toList := List.mem_singleton.mp h2
    refine ⟨Or.inr (Or.inl rfl), ⟨fun _ => hh, fun _ => rfl⟩, ?_⟩
    intro _ _ hhpln _ _ _
    exact absurd hh hhpln
  · refine ⟨Or.inr (Or.inr (Or.inl rfl)), ?_, ?_⟩
    · constructor
      · intro habs
        simp at habs
      · intro hh
        exact absurd (by rw [hh]; simp : ctype.take 4 ∈ ["HPLN".toList]) h2
    · intro _ _ _ hdec hhplt hlat
      exfalso
      rcases h3 with ha | hb
      · rcases List.mem_cons.mp ha with ha1 | ha2
        · exact hdec ha1
        · exact hhplt (List.mem_singleton.mp ha2)
      · exact hlat hb
  · refine ⟨Or.inr (Or.inr (Or.inr rfl)), ?_, fun _ _ _ _ _ _ => rfl⟩
    constructor
    · intro habs
      simp at habs
    · intro hh
      exact absurd (by rw [hh]; simp : ctype.take 4 ∈ ["HPLN".toList]) h2

/-- Witness for C9 at the concrete ctype `VELO-LSR`, which matches no
pattern and yields `(scalar, None)`. -/
theorem C9_coord_type_total_witness :
    coord_type_from_ctype "VELO-LSR".toList = ("scalar".toList, none) :=
  (C9_coord_type_total "VELO-LSR".toList).2.2 (by decide) (by decide)
    (by decide) (by decide) (by decide) (by decide)

/-- C10: whenever `get_coord_meta` returns (rather than raises), the
returned dictionary has `type = (longitude, latitude)`,
`wrap = (None, None)` and `unit = (degree, degree)`, independent of the
frame argument; only the `name` entry varies with the frame. -/
theorem C10_coord_meta_constants :
    ∀ (F : Type) (env : AstropyEnv F) (frame : List Char ⊕ F) (m : CoordMeta),
      get_coord_meta env frame = Except.ok m →
      m.type = ("longitude".toList, "latitude".toList) ∧
      m.wrap = (none, none) ∧
      m.unit = (AngUnit.degree, AngUnit.degree) := by
  intro F env frame m h
  unfold get_coord_meta at h
  split at h
  · split at h
    · split at h
      · injection h with h'
        subst h'
        exact ⟨rfl, rfl, rfl⟩
      · split at h
        · injection h with h'
          subst h'
          exact ⟨rfl, rfl, rfl⟩
        · exact Except.noConfusion h
    · injection h with h'
      subst h'
      exact ⟨rfl, rfl, rfl⟩
  · split at h
    · exact Except.noConfusion h
    · injection h with h'
      subst h'
      exact ⟨rfl, rfl, rfl⟩

/-- Witness for C10 with a one-frame environment in which lookup succeeds
and the component names are `ra`, `dec`. -/
theorem C10_coord_meta_constants_witness :
    (⟨("longitude".toList, "latitude".toList), (none, none),
      (AngUnit.degree, AngUnit.degree),
      some ["ra".toList, "dec".toList]⟩ : CoordMeta).type =
        ("longitude".toList, "latitude".toList) ∧
    (⟨("longitude".toList, "latitude".toList), (none, none),
      (AngUnit.degree, AngUnit.degree),
      some ["ra".toList, "dec".toList]⟩ : CoordMeta).wrap = (none, none) ∧
    (⟨("longitude".toList, "latitude".toList), (none, none),
      (AngUnit.degree, AngUnit.degree),
      some ["ra".toList, "dec".toList]⟩ : CoordMeta).unit =
        (AngUnit.degree, AngUnit.degree) :=
  C10_coord_meta_constants Unit
    ⟨fun _ => none, fun _ => ["ra".toList, "dec".toList], false⟩
    (Sum.inr ())
    ⟨("longitude".toList, "latitude".toList), (none, none),
      (AngUnit.degree, AngUnit.degree), some ["ra".toList, "dec".toList]⟩
    rfl

end WCSAxes
